import Mathlib

/-!
Shallow embedding of the `github-identity` Soroban contract
(src/github-identity/src/{lib.rs, storage.rs, types.rs}).

Modelling conventions:
* `Address` is abstracted as `Nat`; soroban `String` as Lean `String`;
  `Bytes` as `List Nat`; `u32`/`u64` values as `Nat` with explicit
  `% 2 ^ 64` where the Rust release-mode wrapping addition matters;
  `i128` (the mint fee) as `Int` (only compared to zero in the code).
* Contract storage is a record of partial maps (`Nat → Option _`,
  `Option` for possibly-absent entries), one field per key family used in
  storage.rs: `CONFIG`, `TOKEN_CTR`, `(TOK, id)`, `(HLD, addr)`,
  `(HAS, addr)`, `(NON, addr)`.
* Each contract entry point becomes a function from the pre-state (plus
  the ledger timestamp, passed explicitly as `now`) to `Except Error`
  of its result and post-state.  In the Rust source every error return
  happens before the first storage write, and the Soroban host discards
  all writes of a failed invocation, so an error carries no state and a
  failed call leaves the state unchanged.
* `caller.require_auth()` is the host's authentication capability,
  treated as a black box that has already succeeded; events are not
  modelled (no claim mentions them).
* In string literals the apostrophe character of the SVG templates is
  written with its escape `\x27`; the bytes are identical to the source.
-/

namespace GithubIdentity

/-- `2 ^ 64`, the modulus of Rust `u64` wrapping arithmetic. -/
def U64 : Nat := 2 ^ 64

/-- Error enum from types.rs. -/
inductive Error where
  | AlreadyHasIdentity
  | NoIdentityFound
  | InvalidTier
  | InvalidNonce
  | InvalidSignature
  | InsufficientPayment
  | TransferNotAllowed
  | EmptyUsername
  | NotInitialized
  | NotAdmin
  | TokenNotFound
  | AccessControlError
  | Unauthorized
  | AlreadyInitialized
deriving DecidableEq, Repr

/-- Tier enum from types.rs, in declaration order (ascending reputation). -/
inductive Tier where
  | Novice
  | Pro
  | Architect
  | Legend
  | Singularity
deriving DecidableEq, Repr

/-- `Tier::from_contributions` (types.rs): the Rust `match` tests its arms
top-down, `5000.. => Singularity, 3000..=4999 => Legend, 1000..=2999 =>
Architect, 200..=999 => Pro, _ => Novice`. -/
def Tier.from_contributions (contributions : Nat) : Tier :=
  if 5000 ≤ contributions then .Singularity
  else if 3000 ≤ contributions ∧ contributions ≤ 4999 then .Legend
  else if 1000 ≤ contributions ∧ contributions ≤ 2999 then .Architect
  else if 200 ≤ contributions ∧ contributions ≤ 999 then .Pro
  else .Novice

/-- `Tier::to_number` (types.rs). -/
def Tier.to_number : Tier → Nat
  | .Novice => 1
  | .Pro => 2
  | .Architect => 3
  | .Legend => 4
  | .Singularity => 5

/-- `GithubData` record from types.rs. -/
structure GithubData where
  username : String
  contributions : Nat
  tier : Tier
  minted_at : Nat
  updated_at : Nat
  proof_data : List Nat
deriving DecidableEq, Repr

/-- `Config` record from types.rs (addresses abstracted as `Nat`). -/
structure Config where
  admin : Nat
  access_control : Nat
  treasury : Nat
  mint_fee : Int
deriving DecidableEq, Repr

/-- The contract's persistent (and, for nonces, temporary) storage, one
field per key family of storage.rs. -/
structure ContractState where
  config : Option Config
  tokenCounter : Option Nat
  tokens : Nat → Option GithubData
  holderToken : Nat → Option Nat
  hasFlag : Nat → Option Bool
  nonces : Nat → Option Nat

/-- The empty storage: the state before any invocation. -/
def initState : ContractState :=
  { config := none
    tokenCounter := none
    tokens := fun _ => none
    holderToken := fun _ => none
    hasFlag := fun _ => none
    nonces := fun _ => none }

/-- storage.rs `set_config`. -/
def set_config (s : ContractState) (c : Config) : ContractState :=
  { s with config := some c }

/-- storage.rs `get_config`: `NotInitialized` when the record is absent. -/
def get_config (s : ContractState) : Except Error Config :=
  match s.config with
  | some c => .ok c
  | none => .error .NotInitialized

/-- storage.rs `get_admin`. -/
def get_admin (s : ContractState) : Except Error Nat :=
  (get_config s).map Config.admin

/-- storage.rs `get_mint_fee`: lenient, defaults to 0 when uninitialized. -/
def get_mint_fee (s : ContractState) : Int :=
  match s.config with
  | some c => c.mint_fee
  | none => 0

/-- storage.rs `get_next_token_id`: stored counter, defaulting to 1. -/
def get_next_token_id (s : ContractState) : Nat :=
  s.tokenCounter.getD 1

/-- storage.rs `increment_token_counter` (`current + 1` wraps at `2^64`
in release-mode Rust). -/
def increment_token_counter (s : ContractState) : ContractState :=
  { s with tokenCounter := some ((get_next_token_id s + 1) % U64) }

/-- storage.rs `set_token_data`. -/
def set_token_data (s : ContractState) (token_id : Nat) (d : GithubData) :
    ContractState :=
  { s with tokens := fun i => if i = token_id then some d else s.tokens i }

/-- storage.rs `get_token_data`: `TokenNotFound` when absent. -/
def get_token_data (s : ContractState) (token_id : Nat) :
    Except Error GithubData :=
  match s.tokens token_id with
  | some d => .ok d
  | none => .error .TokenNotFound

/-- storage.rs `update_token_data`: requires the key to exist. -/
def update_token_data (s : ContractState) (token_id : Nat) (d : GithubData) :
    Except Error ContractState :=
  if (s.tokens token_id).isSome then
    .ok { s with
          tokens := fun i => if i = token_id then some d else s.tokens i }
  else
    .error .TokenNotFound

/-- storage.rs `set_holder_token`. -/
def set_holder_token (s : ContractState) (holder token_id : Nat) :
    ContractState :=
  { s with
    holderToken := fun a => if a = holder then some token_id
                            else s.holderToken a }

/-- storage.rs `get_holder_token`: `NoIdentityFound` when absent. -/
def get_holder_token (s : ContractState) (holder : Nat) : Except Error Nat :=
  match s.holderToken holder with
  | some t => .ok t
  | none => .error .NoIdentityFound

/-- storage.rs `set_has_identity`. -/
def set_has_identity (s : ContractState) (holder : Nat) (b : Bool) :
    ContractState :=
  { s with hasFlag := fun a => if a = holder then some b else s.hasFlag a }

/-- storage.rs `has_identity`: stored flag, defaulting to `false`. -/
def has_identity (s : ContractState) (holder : Nat) : Bool :=
  (s.hasFlag holder).getD false

/-- storage.rs `get_nonce`: stored nonce, defaulting to 0. -/
def get_nonce (s : ContractState) (user : Nat) : Nat :=
  (s.nonces user).getD 0

/-- storage.rs `increment_nonce` (wrapping `u64` increment; the TTL
extension is a storage-substrate concern with no effect on the value). -/
def increment_nonce (s : ContractState) (user : Nat) : ContractState :=
  { s with
    nonces := fun a => if a = user then some ((get_nonce s user + 1) % U64)
                       else s.nonces a }

/-- lib.rs `initialize` (the name `initialize` is a Lean keyword, hence
`contractInit`). -/
def contractInit (s : ContractState) (admin access_control treasury : Nat)
    (mint_fee : Int) : Except Error ContractState :=
  match get_config s with
  | .ok _ => .error .AlreadyInitialized
  | .error _ =>
      .ok (set_config s
            { admin := admin, access_control := access_control,
              treasury := treasury, mint_fee := mint_fee })

/-- lib.rs `mint`.  The `_signature` and `_referrer` parameters are unused
by the source and omitted; `now` is `env.ledger().timestamp()`. -/
def mint (s : ContractState) (caller : Nat) (username : String)
    (contributions : Nat) (proof_data : List Nat) (nonce : Nat) (now : Nat) :
    Except Error (Nat × ContractState) :=
  if username.length = 0 then .error .EmptyUsername
  else if has_identity s caller then .error .AlreadyHasIdentity
  else if nonce ≠ get_nonce s caller then .error .InvalidNonce
  else if get_mint_fee s > 0 then .error .InsufficientPayment
  else
    let s1 := increment_nonce s caller
    let token_id := get_next_token_id s1
    let s2 := increment_token_counter s1
    let tier := Tier.from_contributions contributions
    let github_data : GithubData :=
      { username := username, contributions := contributions, tier := tier,
        minted_at := now, updated_at := now, proof_data := proof_data }
    let s3 := set_token_data s2 token_id github_data
    let s4 := set_holder_token s3 caller token_id
    let s5 := set_has_identity s4 caller true
    .ok (token_id, s5)

/-- lib.rs `update_token`. -/
def update_token (s : ContractState) (caller token_id : Nat)
    (username : String) (contributions : Nat) (proof_data : List Nat)
    (now : Nat) : Except Error ContractState :=
  match get_holder_token s caller with
  | .error e => .error e
  | .ok holder_token =>
      if holder_token ≠ token_id then .error .Unauthorized
      else
        match get_token_data s token_id with
        | .error e => .error e
        | .ok data =>
            let tier := Tier.from_contributions contributions
            let data2 : GithubData :=
              { data with
                username := username, contributions := contributions,
                tier := tier, updated_at := now, proof_data := proof_data }
            update_token_data s token_id data2

/-- lib.rs `assert_admin`. -/
def assert_admin (s : ContractState) (caller : Nat) : Except Error Unit :=
  match get_admin s with
  | .error e => .error e
  | .ok stored_admin =>
      if caller ≠ stored_admin then .error .NotAdmin else .ok ()

/-- lib.rs `set_mint_fee`. -/
def set_mint_fee (s : ContractState) (admin : Nat) (new_fee : Int) :
    Except Error ContractState :=
  match assert_admin s admin with
  | .error e => .error e
  | .ok _ =>
      match get_config s with
      | .error e => .error e
      | .ok c => .ok (set_config s { c with mint_fee := new_fee })

/-- lib.rs `set_access_control`. -/
def set_access_control (s : ContractState) (admin access_control : Nat) :
    Except Error ContractState :=
  match assert_admin s admin with
  | .error e => .error e
  | .ok _ =>
      match get_config s with
      | .error e => .error e
      | .ok c => .ok (set_config s { c with access_control := access_control })

/-- lib.rs `set_treasury`. -/
def set_treasury (s : ContractState) (admin treasury : Nat) :
    Except Error ContractState :=
  match assert_admin s admin with
  | .error e => .error e
  | .ok _ =>
      match get_config s with
      | .error e => .error e
      | .ok c => .ok (set_config s { c with treasury := treasury })

/-- types.rs `generate_svg`: matches only on `data.tier`.  Byte-for-byte
the string literals of the source (apostrophes escaped as `\x27`). -/
def generate_svg (data : GithubData) : String :=
  match data.tier with
  | .Novice => "<svg xmlns=\x27http://www.w3.org/2000/svg\x27 width=\x27350\x27 height=\x27200\x27><rect width=\x27100%\x27 height=\x27100%\x27 fill=\x27#b0c4de\x27/><text x=\x2750%\x27 y=\x27100\x27 font-size=\x2724\x27 fill=\x27#181c2f\x27 text-anchor=\x27middle\x27>Novice</text></svg>"
  | .Pro => "<svg xmlns=\x27http://www.w3.org/2000/svg\x27 width=\x27350\x27 height=\x27200\x27><rect width=\x27100%\x27 height=\x27100%\x27 fill=\x27#90ee90\x27/><text x=\x2750%\x27 y=\x27100\x27 font-size=\x2724\x27 fill=\x27#181c2f\x27 text-anchor=\x27middle\x27>Pro</text></svg>"
  | .Architect => "<svg xmlns=\x27http://www.w3.org/2000/svg\x27 width=\x27350\x27 height=\x27200\x27><rect width=\x27100%\x27 height=\x27100%\x27 fill=\x27#ffd700\x27/><text x=\x2750%\x27 y=\x27100\x27 font-size=\x2724\x27 fill=\x27#181c2f\x27 text-anchor=\x27middle\x27>Architect</text></svg>"
  | .Legend => "<svg xmlns=\x27http://www.w3.org/2000/svg\x27 width=\x27350\x27 height=\x27200\x27><rect width=\x27100%\x27 height=\x27100%\x27 fill=\x27#ff8c00\x27/><text x=\x2750%\x27 y=\x27100\x27 font-size=\x2724\x27 fill=\x27#fff\x27 text-anchor=\x27middle\x27>Legend</text></svg>"
  | .Singularity => "<svg xmlns=\x27http://www.w3.org/2000/svg\x27 width=\x27350\x27 height=\x27200\x27><rect width=\x27100%\x27 height=\x27100%\x27 fill=\x27#8a2be2\x27/><text x=\x2750%\x27 y=\x27100\x27 font-size=\x2724\x27 fill=\x27#fff\x27 text-anchor=\x27middle\x27>Singularity</text></svg>"

/-- lib.rs `get_token_svg`: propagates `get_token_data`'s error. -/
def get_token_svg (s : ContractState) (token_id : Nat) :
    Except Error String :=
  (get_token_data s token_id).map generate_svg

/-! ### Trace semantics

A reachable state is the result of running a list of invocations of the
contract's mutating entry points from the empty storage.  The Soroban
host serializes invocations and discards all writes of a failed one, so
a failed invocation leaves the state unchanged (in this code every error
return in fact precedes the first write). -/

/-- One invocation of a mutating entry point, with all its arguments. -/
inductive Op where
  | initOp (admin access_control treasury : Nat) (mint_fee : Int)
  | mintOp (caller : Nat) (username : String) (contributions : Nat)
      (proof_data : List Nat) (nonce : Nat) (now : Nat)
  | updateOp (caller token_id : Nat) (username : String)
      (contributions : Nat) (proof_data : List Nat) (now : Nat)
  | setFeeOp (admin : Nat) (new_fee : Int)
  | setAccessOp (admin access_control : Nat)
  | setTreasuryOp (admin treasury : Nat)

/-- Host semantics of one invocation: the post-state on success, the
unchanged pre-state on error. -/
def execStep (s : ContractState) : Op → ContractState
  | .initOp a ac tr fee =>
      match contractInit s a ac tr fee with
      | .ok s' => s'
      | .error _ => s
  | .mintOp caller u c p n now =>
      match mint s caller u c p n now with
      | .ok (_, s') => s'
      | .error _ => s
  | .updateOp caller tid u c p now =>
      match update_token s caller tid u c p now with
      | .ok s' => s'
      | .error _ => s
  | .setFeeOp a fee =>
      match set_mint_fee s a fee with
      | .ok s' => s'
      | .error _ => s
  | .setAccessOp a ac =>
      match set_access_control s a ac with
      | .ok s' => s'
      | .error _ => s
  | .setTreasuryOp a tr =>
      match set_treasury s a tr with
      | .ok s' => s'
      | .error _ => s

/-- The state reached by running a trace of invocations from the empty
storage. -/
def exec (t : List Op) : ContractState :=
  t.foldl execStep initState

/-- Whether an invocation, run in state `s`, is a mint that commits. -/
def isCommittedMint (s : ContractState) : Op → Bool
  | .mintOp caller u c p n now =>
      match mint s caller u c p n now with
      | .ok _ => true
      | .error _ => false
  | _ => false

/-- Number of committed mints along a trace started in state `s`. -/
def committedMints : ContractState → List Op → Nat
  | _, [] => 0
  | s, op :: rest =>
      (if isCommittedMint s op then 1 else 0) +
        committedMints (execStep s op) rest

/-- State invariant maintained by every entry point: a holder whose
`has_identity` flag is unset has nonce 0; every stored record's tier is
the classifier of its stored contributions; every registered holder
token points at an existing record. -/
def Inv (s : ContractState) : Prop :=
  (∀ a, has_identity s a = false → get_nonce s a = 0) ∧
  (∀ tid d, s.tokens tid = some d →
      d.tier = Tier.from_contributions d.contributions) ∧
  (∀ a tid, s.holderToken a = some tid → (s.tokens tid).isSome = true)

/-! ### Spec-side badge template (for the refinement comparison)

Modelled from the spec, §4.2: the fill-color/text-color table and the
single literal template
`<svg xmlns='http://www.w3.org/2000/svg' width='350' height='200'><rect
width='100%' height='100%' fill='<FILL>'/><text x='50%' y='100'
font-size='24' fill='<TEXTCOLOR>' text-anchor='middle'><TIER
NAME></text></svg>`.  These definitions follow the spec's words, to be
compared against `generate_svg`, which is translated from the source. -/

/-- Modelled from the spec: the §4.2 fill-color column. -/
def specFill : Tier → String
  | .Novice => "#b0c4de"
  | .Pro => "#90ee90"
  | .Architect => "#ffd700"
  | .Legend => "#ff8c00"
  | .Singularity => "#8a2be2"

/-- Modelled from the spec: the §4.2 text-color column (dark for
Novice/Pro/Architect, white for Legend/Singularity). -/
def specTextColor : Tier → String
  | .Novice => "#181c2f"
  | .Pro => "#181c2f"
  | .Architect => "#181c2f"
  | .Legend => "#fff"
  | .Singularity => "#fff"

/-- Modelled from the spec: the tier's display name. -/
def specTierName : Tier → String
  | .Novice => "Novice"
  | .Pro => "Pro"
  | .Architect => "Architect"
  | .Legend => "Legend"
  | .Singularity => "Singularity"

/-- Modelled from the spec: the §4.2 template with `<FILL>`,
`<TEXTCOLOR>` and `<TIER NAME>` substituted. -/
def specBadgeTemplate (t : Tier) : String :=
  "<svg xmlns=\x27http://www.w3.org/2000/svg\x27 width=\x27350\x27 height=\x27200\x27><rect width=\x27100%\x27 height=\x27100%\x27 fill=\x27"
    ++ specFill t
    ++ "\x27/><text x=\x2750%\x27 y=\x27100\x27 font-size=\x2724\x27 fill=\x27"
    ++ specTextColor t
    ++ "\x27 text-anchor=\x27middle\x27>"
    ++ specTierName t
    ++ "</text></svg>"

/-- A concrete trace: initialize with fee 0, then holder 7 mints with
1500 contributions.  Used by witnesses. -/
def trace1 : List Op :=
  [Op.initOp 1 2 3 0, Op.mintOp 7 "alice" 1500 [] 0 100]

/-- `trace1` followed by holder 7 updating token 1 to 3500
contributions.  Used by witnesses. -/
def trace2 : List Op :=
  trace1 ++ [Op.updateOp 7 1 "bob" 3500 [4] 150]

/-- The record stored for token 1 after `trace2`. -/
def record3500 : GithubData :=
  { username := "bob", contributions := 3500, tier := .Legend,
    minted_at := 100, updated_at := 150, proof_data := [4] }

/-- A record agreeing with `record3500` only on the tier. -/
def recordOther : GithubData :=
  { username := "x", contributions := 4000, tier := .Legend,
    minted_at := 1, updated_at := 2, proof_data := [9] }

/-! ## Helper lemmas -/

/-- An empty username is rejected first. -/
theorem mint_error_of_empty_username (s : ContractState) (caller : Nat)
    (u : String) (c : Nat) (p : List Nat) (n now : Nat)
    (hu : u.length = 0) :
    mint s caller u c p n now = .error .EmptyUsername := by
  simp [mint, hu]

/-- A holder whose `has_identity` flag is set is rejected second. -/
theorem mint_error_of_has_identity (s : ContractState) (caller : Nat)
    (u : String) (c : Nat) (p : List Nat) (n now : Nat)
    (hu : u.length ≠ 0) (hid : has_identity s caller = true) :
    mint s caller u c p n now = .error .AlreadyHasIdentity := by
  simp [mint, hu, hid]

/-- A mismatched nonce is rejected third. -/
theorem mint_error_of_bad_nonce (s : ContractState) (caller : Nat)
    (u : String) (c : Nat) (p : List Nat) (n now : Nat)
    (hu : u.length ≠ 0) (hid : has_identity s caller = false)
    (hn : n ≠ get_nonce s caller) :
    mint s caller u c p n now = .error .InvalidNonce := by
  simp [mint, hu, hid, hn]

/-- A failed mint leaves the state unchanged. -/
theorem execStep_mint_error (s : ContractState) (caller : Nat) (u : String)
    (c : Nat) (p : List Nat) (n now : Nat) (e : Error)
    (h : mint s caller u c p n now = .error e) :
    execStep s (.mintOp caller u c p n now) = s := by
  simp [execStep, h]

/-- A successful mint passed all four checks, returns the current
counter value and produces exactly this state. -/
theorem mint_ok_cases (s : ContractState) (caller : Nat) (u : String)
    (c : Nat) (p : List Nat) (n now : Nat) (tid : Nat) (s' : ContractState)
    (h : mint s caller u c p n now = .ok (tid, s')) :
    u.length ≠ 0 ∧ has_identity s caller = false ∧
    n = get_nonce s caller ∧ ¬ get_mint_fee s > 0 ∧
    tid = get_next_token_id s ∧
    s' = { config := s.config
           tokenCounter := some ((get_next_token_id s + 1) % U64)
           tokens := fun i => if i = get_next_token_id s then
               some { username := u, contributions := c,
                      tier := Tier.from_contributions c,
                      minted_at := now, updated_at := now, proof_data := p }
             else s.tokens i
           holderToken := fun a => if a = caller then
               some (get_next_token_id s) else s.holderToken a
           hasFlag := fun a => if a = caller then some true else s.hasFlag a
           nonces := fun a => if a = caller then
               some ((get_nonce s caller + 1) % U64) else s.nonces a } := by
  simp only [mint] at h
  split_ifs at h with h1 h2 h3 h4
  simp only [Except.ok.injEq, Prod.mk.injEq] at h
  obtain ⟨htid, hs⟩ := h
  refine ⟨h1, by simpa using h2, by simpa using h3, h4, ?_, ?_⟩
  · rw [← htid]
    simp [increment_nonce, get_next_token_id]
  · rw [← hs]
    simp only [set_has_identity, set_holder_token, set_token_data,
      increment_token_counter, increment_nonce, get_next_token_id,
      get_nonce]

/-- An unregistered caller's update is rejected with `NoIdentityFound`. -/
theorem update_error_of_no_identity (s : ContractState) (caller tid : Nat)
    (u : String) (c : Nat) (p : List Nat) (now : Nat)
    (h : s.holderToken caller = none) :
    update_token s caller tid u c p now = .error .NoIdentityFound := by
  simp [update_token, get_holder_token, h]

/-- An update naming a token other than the caller's is rejected with
`Unauthorized`. -/
theorem update_error_of_wrong_token (s : ContractState) (caller tid k : Nat)
    (u : String) (c : Nat) (p : List Nat) (now : Nat)
    (h : s.holderToken caller = some k) (hk : k ≠ tid) :
    update_token s caller tid u c p now = .error .Unauthorized := by
  simp [update_token, get_holder_token, h, hk]

/-- A failed update leaves the state unchanged. -/
theorem execStep_update_error (s : ContractState) (caller tid : Nat)
    (u : String) (c : Nat) (p : List Nat) (now : Nat) (e : Error)
    (h : update_token s caller tid u c p now = .error e) :
    execStep s (.updateOp caller tid u c p now) = s := by
  simp [execStep, h]

/-- A successful update was made by the token's registered holder on an
existing record and overwrites exactly the five mutable fields of that
record. -/
theorem update_ok_cases (s : ContractState) (caller tid : Nat)
    (u : String) (c : Nat) (p : List Nat) (now : Nat) (s' : ContractState)
    (h : update_token s caller tid u c p now = .ok s') :
    s.holderToken caller = some tid ∧
    ∃ d, s.tokens tid = some d ∧
      s' = { s with
             tokens := fun i => if i = tid then
                 some { username := u, contributions := c,
                        tier := Tier.from_contributions c,
                        minted_at := d.minted_at, updated_at := now,
                        proof_data := p }
               else s.tokens i } := by
  cases hht : s.holderToken caller with
  | none =>
      rw [update_error_of_no_identity s caller tid u c p now hht] at h
      exact absurd h (by simp)
  | some k =>
      rcases eq_or_ne k tid with rfl | hk
      · cases hd : s.tokens k with
        | none =>
            simp [update_token, get_holder_token, hht, get_token_data,
              hd] at h
        | some d =>
            simp only [update_token, get_holder_token, hht,
              get_token_data, hd, update_token_data, Option.isSome_some,
              if_true, ne_eq, not_true_eq_false, if_false,
              Except.ok.injEq] at h
            exact ⟨rfl, d, rfl, h.symm⟩
      · rw [update_error_of_wrong_token s caller tid k u c p now hht hk]
          at h
        exact absurd h (by simp)

/-- `initialize` touches only the config record. -/
theorem execStep_initOp_preserves (s : ContractState)
    (a ac tr : Nat) (fee : Int) :
    (execStep s (.initOp a ac tr fee)).tokenCounter = s.tokenCounter ∧
    (execStep s (.initOp a ac tr fee)).tokens = s.tokens ∧
    (execStep s (.initOp a ac tr fee)).holderToken = s.holderToken ∧
    (execStep s (.initOp a ac tr fee)).hasFlag = s.hasFlag ∧
    (execStep s (.initOp a ac tr fee)).nonces = s.nonces := by
  cases hc : s.config <;>
    simp [execStep, contractInit, get_config, set_config, hc]

/-- `set_mint_fee` touches only the config record. -/
theorem execStep_setFeeOp_preserves (s : ContractState) (a : Nat)
    (fee : Int) :
    (execStep s (.setFeeOp a fee)).tokenCounter = s.tokenCounter ∧
    (execStep s (.setFeeOp a fee)).tokens = s.tokens ∧
    (execStep s (.setFeeOp a fee)).holderToken = s.holderToken ∧
    (execStep s (.setFeeOp a fee)).hasFlag = s.hasFlag ∧
    (execStep s (.setFeeOp a fee)).nonces = s.nonces := by
  cases hc : s.config with
  | none => simp [execStep, set_mint_fee, assert_admin, get_admin,
      get_config, hc, Except.map]
  | some cfg =>
      by_cases ha : a = cfg.admin <;>
        simp [execStep, set_mint_fee, assert_admin, get_admin, get_config,
          set_config, hc, ha, Except.map]

/-- `set_access_control` touches only the config record. -/
theorem execStep_setAccessOp_preserves (s : ContractState) (a ac : Nat) :
    (execStep s (.setAccessOp a ac)).tokenCounter = s.tokenCounter ∧
    (execStep s (.setAccessOp a ac)).tokens = s.tokens ∧
    (execStep s (.setAccessOp a ac)).holderToken = s.holderToken ∧
    (execStep s (.setAccessOp a ac)).hasFlag = s.hasFlag ∧
    (execStep s (.setAccessOp a ac)).nonces = s.nonces := by
  cases hc : s.config with
  | none => simp [execStep, set_access_control, assert_admin, get_admin,
      get_config, hc, Except.map]
  | some cfg =>
      by_cases ha : a = cfg.admin <;>
        simp [execStep, set_access_control, assert_admin, get_admin,
          get_config, set_config, hc, ha, Except.map]

/-- `set_treasury` touches only the config record. -/
theorem execStep_setTreasuryOp_preserves (s : ContractState) (a tr : Nat) :
    (execStep s (.setTreasuryOp a tr)).tokenCounter = s.tokenCounter ∧
    (execStep s (.setTreasuryOp a tr)).tokens = s.tokens ∧
    (execStep s (.setTreasuryOp a tr)).holderToken = s.holderToken ∧
    (execStep s (.setTreasuryOp a tr)).hasFlag = s.hasFlag ∧
    (execStep s (.setTreasuryOp a tr)).nonces = s.nonces := by
  cases hc : s.config with
  | none => simp [execStep, set_treasury, assert_admin, get_admin,
      get_config, hc, Except.map]
  | some cfg =>
      by_cases ha : a = cfg.admin <;>
        simp [execStep, set_treasury, assert_admin, get_admin,
          get_config, set_config, hc, ha, Except.map]

/-- `update_token` touches only the token records. -/
theorem execStep_updateOp_preserves (s : ContractState) (caller tid : Nat)
    (u : String) (c : Nat) (p : List Nat) (now : Nat) :
    (execStep s (.updateOp caller tid u c p now)).config = s.config ∧
    (execStep s (.updateOp caller tid u c p now)).tokenCounter
      = s.tokenCounter ∧
    (execStep s (.updateOp caller tid u c p now)).holderToken
      = s.holderToken ∧
    (execStep s (.updateOp caller tid u c p now)).hasFlag = s.hasFlag ∧
    (execStep s (.updateOp caller tid u c p now)).nonces = s.nonces := by
  cases hres : update_token s caller tid u c p now with
  | error e => rw [execStep_update_error s caller tid u c p now e hres]
               exact ⟨rfl, rfl, rfl, rfl, rfl⟩
  | ok s' =>
      obtain ⟨-, d, -, hs'⟩ :=
        update_ok_cases s caller tid u c p now s' hres
      have hstep : execStep s (.updateOp caller tid u c p now) = s' := by
        simp [execStep, hres]
      rw [hstep, hs']
      exact ⟨rfl, rfl, rfl, rfl, rfl⟩


/-- The counter after one invocation: bumped (mod `2^64`) by a committed
mint, unchanged otherwise. -/
theorem get_next_token_id_execStep (s : ContractState) (op : Op) :
    get_next_token_id (execStep s op) =
      if isCommittedMint s op = true then (get_next_token_id s + 1) % U64
      else get_next_token_id s := by
  cases op with
  | initOp a ac tr fee =>
      rw [show isCommittedMint s (.initOp a ac tr fee) = false from rfl]
      simp [get_next_token_id, (execStep_initOp_preserves s a ac tr fee).1]
  | setFeeOp a fee =>
      rw [show isCommittedMint s (.setFeeOp a fee) = false from rfl]
      simp [get_next_token_id, (execStep_setFeeOp_preserves s a fee).1]
  | setAccessOp a ac =>
      rw [show isCommittedMint s (.setAccessOp a ac) = false from rfl]
      simp [get_next_token_id, (execStep_setAccessOp_preserves s a ac).1]
  | setTreasuryOp a tr =>
      rw [show isCommittedMint s (.setTreasuryOp a tr) = false from rfl]
      simp [get_next_token_id,
        (execStep_setTreasuryOp_preserves s a tr).1]
  | updateOp caller tid u c p now =>
      rw [show isCommittedMint s (.updateOp caller tid u c p now) = false
        from rfl]
      simp [get_next_token_id,
        (execStep_updateOp_preserves s caller tid u c p now).2.1]
  | mintOp caller u c p n now =>
      cases hm : mint s caller u c p n now with
      | error e =>
          rw [execStep_mint_error s caller u c p n now e hm]
          simp [isCommittedMint, hm]
      | ok res =>
          obtain ⟨tid, s'⟩ := res
          obtain ⟨-, -, -, -, -, hs'⟩ :=
            mint_ok_cases s caller u c p n now tid s' hm
          have hstep : execStep s (.mintOp caller u c p n now) = s' := by
            simp [execStep, hm]
          rw [hstep, hs']
          simp [isCommittedMint, hm, get_next_token_id]

/-- The counter stays below `2^64` across any invocation. -/
theorem get_next_token_id_execStep_lt (s : ContractState) (op : Op)
    (h : get_next_token_id s < U64) :
    get_next_token_id (execStep s op) < U64 := by
  rw [get_next_token_id_execStep]
  split
  · exact Nat.mod_lt _ (by decide)
  · exact h

/-- Running a trace adds the number of committed mints to the counter,
mod `2^64`. -/
theorem get_next_token_id_foldl (t : List Op) :
    ∀ s, get_next_token_id s < U64 →
      get_next_token_id (t.foldl execStep s) =
        (get_next_token_id s + committedMints s t) % U64 := by
  induction t with
  | nil =>
      intro s hs
      simp [committedMints, Nat.mod_eq_of_lt hs]
  | cons op rest ih =>
      intro s hs
      rw [List.foldl_cons]
      rw [ih (execStep s op) (get_next_token_id_execStep_lt s op hs)]
      rw [get_next_token_id_execStep]
      cases hcm : isCommittedMint s op with
      | false => simp [committedMints, hcm]
      | true =>
          simp only [committedMints, hcm, if_true, if_pos rfl]
          rw [Nat.mod_add_mod]
          congr 1
          omega

/-- The counter of the genesis state reads as 1. -/
theorem get_next_token_id_initState : get_next_token_id initState = 1 :=
  rfl

/-- In a reachable state the counter reads `1 + number of committed
mints`, mod `2^64`. -/
theorem get_next_token_id_exec (t : List Op) :
    get_next_token_id (exec t) =
      (1 + committedMints initState t) % U64 := by
  rw [exec, get_next_token_id_foldl t initState (by decide),
    get_next_token_id_initState]


/-- `Inv` only looks at the four per-holder/per-token map fields. -/
theorem inv_of_fields_eq (s s' : ContractState) (h : Inv s)
    (ht : s'.tokens = s.tokens) (hh : s'.holderToken = s.holderToken)
    (hf : s'.hasFlag = s.hasFlag) (hn : s'.nonces = s.nonces) : Inv s' := by
  unfold Inv has_identity get_nonce at h ⊢
  rw [ht, hh, hf, hn]
  exact h

/-- The genesis state satisfies the invariant. -/
theorem inv_initState : Inv initState := by
  refine ⟨fun a _ => rfl, fun tid d h => by simp [initState] at h,
    fun a tid h => by simp [initState] at h⟩

/-- Every invocation preserves the invariant. -/
theorem inv_execStep (s : ContractState) (op : Op) (h : Inv s) :
    Inv (execStep s op) := by
  obtain ⟨h1, h2, h3⟩ := h
  cases op with
  | initOp a ac tr fee =>
      obtain ⟨-, e1, e2, e3, e4⟩ := execStep_initOp_preserves s a ac tr fee
      exact inv_of_fields_eq s _ ⟨h1, h2, h3⟩ e1 e2 e3 e4
  | setFeeOp a fee =>
      obtain ⟨-, e1, e2, e3, e4⟩ := execStep_setFeeOp_preserves s a fee
      exact inv_of_fields_eq s _ ⟨h1, h2, h3⟩ e1 e2 e3 e4
  | setAccessOp a ac =>
      obtain ⟨-, e1, e2, e3, e4⟩ := execStep_setAccessOp_preserves s a ac
      exact inv_of_fields_eq s _ ⟨h1, h2, h3⟩ e1 e2 e3 e4
  | setTreasuryOp a tr =>
      obtain ⟨-, e1, e2, e3, e4⟩ := execStep_setTreasuryOp_preserves s a tr
      exact inv_of_fields_eq s _ ⟨h1, h2, h3⟩ e1 e2 e3 e4
  | mintOp caller u c p n now =>
      cases hm : mint s caller u c p n now with
      | error e =>
          rw [execStep_mint_error s caller u c p n now e hm]
          exact ⟨h1, h2, h3⟩
      | ok res =>
          obtain ⟨tid, s'⟩ := res
          obtain ⟨-, hid, -, -, -, hs'⟩ :=
            mint_ok_cases s caller u c p n now tid s' hm
          have hstep : execStep s (.mintOp caller u c p n now) = s' := by
            simp [execStep, hm]
          rw [hstep, hs']
          refine ⟨?_, ?_, ?_⟩
          · intro a ha
            simp only [has_identity, get_nonce] at ha ⊢
            by_cases hac : a = caller
            · simp [hac] at ha
            · simp only [if_neg hac]
              exact h1 a (by simpa [has_identity, get_nonce, hac] using ha)
          · intro tid0 d hd
            simp only at hd
            by_cases htid : tid0 = get_next_token_id s
            · rw [if_pos htid] at hd
              cases hd
              rfl
            · rw [if_neg htid] at hd
              exact h2 tid0 d hd
          · intro a tid0 hht
            simp only at hht ⊢
            by_cases hac : a = caller
            · rw [if_pos hac, Option.some.injEq] at hht
              rw [← hht]
              simp
            · rw [if_neg hac] at hht
              by_cases htid : tid0 = get_next_token_id s
              · simp [htid]
              · simp only [if_neg htid]
                exact h3 a tid0 hht
  | updateOp caller tid u c p now =>
      cases hres : update_token s caller tid u c p now with
      | error e =>
          rw [execStep_update_error s caller tid u c p now e hres]
          exact ⟨h1, h2, h3⟩
      | ok s' =>
          obtain ⟨-, d, -, hs'⟩ :=
            update_ok_cases s caller tid u c p now s' hres
          have hstep : execStep s (.updateOp caller tid u c p now) = s' := by
            simp [execStep, hres]
          rw [hstep, hs']
          refine ⟨h1, ?_, ?_⟩
          · intro tid0 d0 hd
            simp only at hd
            by_cases htid : tid0 = tid
            · rw [if_pos htid] at hd
              cases hd
              rfl
            · rw [if_neg htid] at hd
              exact h2 tid0 d0 hd
          · intro a tid0 hht
            simp only at hht ⊢
            by_cases htid : tid0 = tid
            · simp [htid]
            · simp only [if_neg htid]
              exact h3 a tid0 hht

/-- Every reachable state satisfies the invariant. -/
theorem inv_exec (t : List Op) : Inv (exec t) := by
  have step : ∀ (l : List Op) (s : ContractState), Inv s →
      Inv (l.foldl execStep s) := by
    intro l
    induction l with
    | nil => intro s hs; exact hs
    | cons op rest ih => intro s hs; exact ih _ (inv_execStep s op hs)
  exact step t initState inv_initState


/-! ## Claim theorems -/

/-- C1, counterexample: holder 7 has already minted in `trace1`, yet a
subsequent mint call by holder 7 with an empty username fails with
`EmptyUsername`, not `AlreadyHasIdentity` as the claim states. -/
theorem second_mint_empty_username_counterexample :
    has_identity (exec trace1) 7 = true ∧
    mint (exec trace1) 7 "" 999 [] 1 200 = .error .EmptyUsername ∧
    Error.EmptyUsername ≠ Error.AlreadyHasIdentity := by
  refine ⟨by decide, by rfl, by decide⟩

/-- C1 (amended): once a mint by a holder has succeeded, every
subsequent mint call with that holder as caller fails — with
`AlreadyHasIdentity` when the username is nonempty, with `EmptyUsername`
when it is empty — and the storage state after the failed attempt equals
the state after only the first mint (no record, counter, or nonce
change). -/
theorem mint_second_attempt_rejected (s0 s : ContractState)
    (caller tid : Nat) (u0 u : String) (c0 c : Nat) (p0 p : List Nat)
    (n0 n now0 now : Nat)
    (hfirst : mint s0 caller u0 c0 p0 n0 now0 = .ok (tid, s)) :
    mint s caller u c p n now =
      .error (if u.length = 0 then .EmptyUsername
              else .AlreadyHasIdentity) ∧
    execStep s (.mintOp caller u c p n now) = s := by
  obtain ⟨-, -, -, -, -, hs⟩ :=
    mint_ok_cases s0 caller u0 c0 p0 n0 now0 tid s hfirst
  have hid : has_identity s caller = true := by
    rw [hs]; simp [has_identity]
  by_cases hu : u.length = 0
  · rw [if_pos hu]
    have herr := mint_error_of_empty_username s caller u c p n now hu
    exact ⟨herr, execStep_mint_error s caller u c p n now _ herr⟩
  · rw [if_neg hu]
    have herr := mint_error_of_has_identity s caller u c p n now hu hid
    exact ⟨herr, execStep_mint_error s caller u c p n now _ herr⟩

/-- C1 witness: after `trace1`, holder 7's second mint with username
"bob" fails with `AlreadyHasIdentity` and changes nothing. -/
theorem mint_second_attempt_rejected_witness :
    mint (exec [Op.initOp 1 2 3 0]) 7 "alice" 1500 [] 0 100 =
      .ok (1, exec trace1) ∧
    (mint (exec trace1) 7 "bob" 10 [] 1 200 =
      .error (if "bob".length = 0 then .EmptyUsername
              else .AlreadyHasIdentity) ∧
     execStep (exec trace1) (.mintOp 7 "bob" 10 [] 1 200) = exec trace1) :=
  ⟨by rfl,
   mint_second_attempt_rejected (exec [Op.initOp 1 2 3 0]) (exec trace1)
     7 1 "alice" "bob" 1500 10 [] [] 0 1 100 200 (by rfl)⟩

/-- C2: in the reachable state after trace `t` with `m` committed mints
(`m + 1` below the `u64` bound), a mint that commits returns token id
`m + 1` — so ids are assigned 1, 2, 3, … in call order with no reuse —
and the token counter changes only on an invocation that is a committed
mint. -/
theorem token_ids_sequential (t : List Op) (caller : Nat) (u : String)
    (c : Nat) (p : List Nat) (n now tid : Nat) (s' : ContractState)
    (hbound : committedMints initState t + 1 < U64)
    (hok : mint (exec t) caller u c p n now = .ok (tid, s')) :
    tid = committedMints initState t + 1 ∧
    (∀ op, (execStep (exec t) op).tokenCounter ≠ (exec t).tokenCounter →
      isCommittedMint (exec t) op = true) := by
  constructor
  · obtain ⟨-, -, -, -, htid, -⟩ :=
      mint_ok_cases _ _ _ _ _ _ _ _ _ hok
    rw [htid, get_next_token_id_exec t,
      Nat.mod_eq_of_lt (by omega)]
    omega
  · intro op hne
    by_contra hcm
    apply hne
    cases op with
    | initOp a ac tr fee => exact (execStep_initOp_preserves _ a ac tr fee).1
    | setFeeOp a fee => exact (execStep_setFeeOp_preserves _ a fee).1
    | setAccessOp a ac => exact (execStep_setAccessOp_preserves _ a ac).1
    | setTreasuryOp a tr => exact (execStep_setTreasuryOp_preserves _ a tr).1
    | updateOp c2 t2 u2 n2 p2 w2 =>
        exact (execStep_updateOp_preserves _ c2 t2 u2 n2 p2 w2).2.1
    | mintOp c2 u2 n2 p2 x2 w2 =>
        cases hm : mint (exec t) c2 u2 n2 p2 x2 w2 with
        | error e => rw [execStep_mint_error _ _ _ _ _ _ _ e hm]
        | ok res => exact absurd (by simp [isCommittedMint, hm]) hcm

/-- C2 witness: after `trace1` (one committed mint), a second holder's
mint returns token id 2. -/
theorem token_ids_sequential_witness :
    committedMints initState trace1 + 1 < U64 ∧
    (2 = committedMints initState trace1 + 1 ∧
     ∀ op, (execStep (exec trace1) op).tokenCounter
         ≠ (exec trace1).tokenCounter →
       isCommittedMint (exec trace1) op = true) :=
  ⟨by decide,
   token_ids_sequential trace1 8 "bob" 10 [] 0 300 2
     (exec (trace1 ++ [Op.mintOp 8 "bob" 10 [] 0 300]))
     (by decide) (by rfl)⟩

/-- C3, counterexample: a mint call by a fresh holder whose supplied
nonce (5) differs from the stored nonce (0) but whose username is empty
fails with `EmptyUsername`, not `InvalidNonce` as the claim states. -/
theorem invalid_nonce_counterexample :
    get_nonce initState 9 = 0 ∧ (5 : Nat) ≠ 0 ∧
    mint initState 9 "" 50 [] 5 10 = .error .EmptyUsername ∧
    Error.EmptyUsername ≠ Error.InvalidNonce := by
  refine ⟨rfl, by decide, by rfl, by decide⟩

/-- C3 (amended): for a mint call with a nonempty username by a holder
without an existing identity, a supplied nonce differing from the stored
nonce (0 if absent) fails with `InvalidNonce` and leaves the whole state
— in particular the token counter and the nonce — unchanged; a mint
that commits from a reachable state increases the caller's nonce by
exactly 1; and update never changes any nonce. -/
theorem invalid_nonce_rejected_nonce_increment (t : List Op)
    (caller : Nat) (u : String) (c : Nat) (p : List Nat) (n now : Nat)
    (hu : u.length ≠ 0) (hid : has_identity (exec t) caller = false) :
    (n ≠ get_nonce (exec t) caller →
      mint (exec t) caller u c p n now = .error .InvalidNonce ∧
      execStep (exec t) (.mintOp caller u c p n now) = exec t) ∧
    (∀ tid s', mint (exec t) caller u c p n now = .ok (tid, s') →
      get_nonce s' caller = get_nonce (exec t) caller + 1) ∧
    (∀ caller2 tid2 u2 c2 p2 now2,
      (execStep (exec t) (.updateOp caller2 tid2 u2 c2 p2 now2)).nonces
        = (exec t).nonces) := by
  refine ⟨?_, ?_, ?_⟩
  · intro hn
    have herr := mint_error_of_bad_nonce (exec t) caller u c p n now
      hu hid hn
    exact ⟨herr, execStep_mint_error _ _ _ _ _ _ _ _ herr⟩
  · intro tid s' hok
    obtain ⟨-, -, -, -, -, hs'⟩ := mint_ok_cases _ _ _ _ _ _ _ _ _ hok
    have h0 : get_nonce (exec t) caller = 0 := (inv_exec t).1 caller hid
    have hval : get_nonce s' caller =
        (get_nonce (exec t) caller + 1) % U64 := by
      rw [hs']; simp [get_nonce]
    rw [hval, h0]
    decide
  · intro caller2 tid2 u2 c2 p2 now2
    exact (execStep_updateOp_preserves _ caller2 tid2 u2 c2 p2
      now2).2.2.2.2

/-- C3 witness: after initialization, holder 7's mint with nonce 1
(stored nonce 0) fails with `InvalidNonce` and changes nothing. -/
theorem invalid_nonce_rejected_witness :
    "alice".length ≠ 0 ∧
    has_identity (exec [Op.initOp 1 2 3 0]) 7 = false ∧
    ((1 : Nat) ≠ get_nonce (exec [Op.initOp 1 2 3 0]) 7 →
      mint (exec [Op.initOp 1 2 3 0]) 7 "alice" 40 [] 1 50 =
        .error .InvalidNonce ∧
      execStep (exec [Op.initOp 1 2 3 0]) (.mintOp 7 "alice" 40 [] 1 50)
        = exec [Op.initOp 1 2 3 0]) ∧
    (∀ tid s',
      mint (exec [Op.initOp 1 2 3 0]) 7 "alice" 40 [] 1 50 =
        .ok (tid, s') →
      get_nonce s' 7 = get_nonce (exec [Op.initOp 1 2 3 0]) 7 + 1) ∧
    (∀ caller2 tid2 u2 c2 p2 now2,
      (execStep (exec [Op.initOp 1 2 3 0])
          (.updateOp caller2 tid2 u2 c2 p2 now2)).nonces
        = (exec [Op.initOp 1 2 3 0]).nonces) :=
  ⟨by decide, by decide,
   (invalid_nonce_rejected_nonce_increment [Op.initOp 1 2 3 0] 7 "alice"
     40 [] 1 50 (by decide) (by decide)).1,
   (invalid_nonce_rejected_nonce_increment [Op.initOp 1 2 3 0] 7 "alice"
     40 [] 1 50 (by decide) (by decide)).2.1,
   (invalid_nonce_rejected_nonce_increment [Op.initOp 1 2 3 0] 7 "alice"
     40 [] 1 50 (by decide) (by decide)).2.2⟩

/-- C4: the tier classifier is total over `u32`, matches the threshold
table exactly, and is monotone non-decreasing in the enum's ascending
order. -/
theorem tier_classifier_total_monotone (n : Nat) (hn : n < 2 ^ 32) :
    (n < 200 → Tier.from_contributions n = .Novice) ∧
    (200 ≤ n ∧ n < 1000 → Tier.from_contributions n = .Pro) ∧
    (1000 ≤ n ∧ n < 3000 → Tier.from_contributions n = .Architect) ∧
    (3000 ≤ n ∧ n < 5000 → Tier.from_contributions n = .Legend) ∧
    (5000 ≤ n → Tier.from_contributions n = .Singularity) ∧
    (∀ m, m ≤ n → (Tier.from_contributions m).to_number ≤
        (Tier.from_contributions n).to_number) := by
  refine ⟨?_, ?_, ?_, ?_, ?_, ?_⟩
  · intro h
    unfold Tier.from_contributions
    split_ifs <;> first | rfl | omega
  · intro h
    unfold Tier.from_contributions
    split_ifs <;> first | rfl | omega
  · intro h
    unfold Tier.from_contributions
    split_ifs <;> first | rfl | omega
  · intro h
    unfold Tier.from_contributions
    split_ifs <;> first | rfl | omega
  · intro h
    unfold Tier.from_contributions
    split_ifs <;> first | rfl | omega
  · intro m hm
    unfold Tier.from_contributions
    split_ifs <;> simp only [Tier.to_number] <;> omega

/-- C4 witness: instantiated at the boundary value 5000. -/
theorem tier_classifier_total_monotone_witness :
    5000 < 2 ^ 32 ∧
    ((5000 < 200 → Tier.from_contributions 5000 = .Novice) ∧
     (200 ≤ 5000 ∧ 5000 < 1000 → Tier.from_contributions 5000 = .Pro) ∧
     (1000 ≤ 5000 ∧ 5000 < 3000 →
        Tier.from_contributions 5000 = .Architect) ∧
     (3000 ≤ 5000 ∧ 5000 < 5000 →
        Tier.from_contributions 5000 = .Legend) ∧
     (5000 ≤ 5000 → Tier.from_contributions 5000 = .Singularity) ∧
     (∀ m, m ≤ 5000 → (Tier.from_contributions m).to_number ≤
        (Tier.from_contributions 5000).to_number)) :=
  ⟨by decide, tier_classifier_total_monotone 5000 (by decide)⟩

/-- C5: in every reachable state, every stored record's tier field
equals the classifier applied to its stored contributions field. -/
theorem stored_tier_matches_contributions (t : List Op) (tid : Nat)
    (d : GithubData) (h : (exec t).tokens tid = some d) :
    d.tier = Tier.from_contributions d.contributions :=
  (inv_exec t).2.1 tid d h

/-- C5 witness: the record minted at 1500 contributions (Architect) and
updated to 3500 carries tier Legend. -/
theorem stored_tier_matches_contributions_witness :
    (exec trace2).tokens 1 = some record3500 ∧
    record3500.tier = Tier.from_contributions record3500.contributions :=
  ⟨by decide,
   stored_tier_matches_contributions trace2 1 record3500 (by decide)⟩

/-- C6, counterexample: with a stored mint fee of 5 > 0, a mint call
with an empty username fails with `EmptyUsername`, not
`InsufficientPayment` as the claim states. -/
theorem positive_fee_counterexample :
    get_mint_fee (exec [Op.initOp 1 2 3 5]) = 5 ∧
    mint (exec [Op.initOp 1 2 3 5]) 7 "" 10 [] 0 10 =
      .error .EmptyUsername ∧
    Error.EmptyUsername ≠ Error.InsufficientPayment := by
  refine ⟨by decide, by rfl, by decide⟩

/-- C6 (amended): a mint call that passes the username, identity and
nonce checks fails with `InsufficientPayment` whenever the stored fee is
positive, leaving the state unchanged (no payment is ever executed);
`get_mint_fee` never fails: it returns 0 when no Config record exists
and the stored fee otherwise. -/
theorem positive_fee_blocks_mint (s : ContractState) (caller : Nat)
    (u : String) (c : Nat) (p : List Nat) (now : Nat) (cfg : Config)
    (hu : u.length ≠ 0) (hid : has_identity s caller = false) :
    (get_mint_fee s > 0 →
      mint s caller u c p (get_nonce s caller) now =
        .error .InsufficientPayment ∧
      execStep s (.mintOp caller u c p (get_nonce s caller) now) = s) ∧
    (s.config = none → get_mint_fee s = 0) ∧
    (s.config = some cfg → get_mint_fee s = cfg.mint_fee) := by
  refine ⟨?_, ?_, ?_⟩
  · intro hfee
    have herr : mint s caller u c p (get_nonce s caller) now =
        .error .InsufficientPayment := by
      simp [mint, hu, hid, hfee]
    exact ⟨herr, execStep_mint_error _ _ _ _ _ _ _ _ herr⟩
  · intro hc
    simp [get_mint_fee, hc]
  · intro hc
    simp [get_mint_fee, hc]

/-- C6 witness: with fee 5 stored, holder 7's otherwise-valid mint fails
with `InsufficientPayment`. -/
theorem positive_fee_blocks_mint_witness :
    "alice".length ≠ 0 ∧
    has_identity (exec [Op.initOp 1 2 3 5]) 7 = false ∧
    ((get_mint_fee (exec [Op.initOp 1 2 3 5]) > 0 →
      mint (exec [Op.initOp 1 2 3 5]) 7 "alice" 40 []
          (get_nonce (exec [Op.initOp 1 2 3 5]) 7) 60 =
        .error .InsufficientPayment ∧
      execStep (exec [Op.initOp 1 2 3 5])
          (.mintOp 7 "alice" 40 []
            (get_nonce (exec [Op.initOp 1 2 3 5]) 7) 60)
        = exec [Op.initOp 1 2 3 5]) ∧
    ((exec [Op.initOp 1 2 3 5]).config = none →
      get_mint_fee (exec [Op.initOp 1 2 3 5]) = 0) ∧
    ((exec [Op.initOp 1 2 3 5]).config = some ⟨1, 2, 3, 5⟩ →
      get_mint_fee (exec [Op.initOp 1 2 3 5]) = 5)) :=
  ⟨by decide, by decide,
   positive_fee_blocks_mint (exec [Op.initOp 1 2 3 5]) 7 "alice" 40 []
     60 ⟨1, 2, 3, 5⟩ (by decide) (by decide)⟩

/-- C7, counterexample: with no Config record, a mint call does not fail
with `NotInitialized` — it succeeds, returning token id 1, because
`get_mint_fee` leniently defaults to 0. -/
theorem uninitialized_mint_succeeds_counterexample :
    initState.config = none ∧
    mint initState 7 "alice" 100 [] 0 50 =
      .ok (1, exec [Op.mintOp 7 "alice" 100 [] 0 50]) := by
  refine ⟨rfl, by rfl⟩

/-- C7 (amended): the admin setters `set_mint_fee`, `set_access_control`
and `set_treasury` fail with `NotInitialized` when the Config record is
absent; `mint` does not depend on Config being present — it reads the
fee through the lenient `get_mint_fee`, which returns 0. -/
theorem admin_setters_require_init (s : ContractState) (a v : Nat)
    (fee : Int) (h : s.config = none) :
    set_mint_fee s a fee = .error .NotInitialized ∧
    set_access_control s a v = .error .NotInitialized ∧
    set_treasury s a v = .error .NotInitialized ∧
    get_mint_fee s = 0 := by
  refine ⟨?_, ?_, ?_, ?_⟩ <;>
    simp [set_mint_fee, set_access_control, set_treasury, assert_admin,
      get_admin, get_config, get_mint_fee, h, Except.map]

/-- C7 witness: on the genesis state every admin setter fails with
`NotInitialized` and the fee reads as 0. -/
theorem admin_setters_require_init_witness :
    initState.config = none ∧
    (set_mint_fee initState 1 9 = .error .NotInitialized ∧
     set_access_control initState 1 4 = .error .NotInitialized ∧
     set_treasury initState 1 4 = .error .NotInitialized ∧
     get_mint_fee initState = 0) :=
  ⟨rfl, admin_setters_require_init initState 1 4 9 rfl⟩

/-- C8: an update call naming a token other than the caller's registered
one fails with `Unauthorized` (`NoIdentityFound` when the caller has no
token), leaving the state unchanged; on success exactly username,
contributions, tier, proof_data and updated_at of that one record are
overwritten, `minted_at` and every other part of the state keep their
values. -/
theorem update_auth_and_frame (s : ContractState) (caller tid : Nat)
    (u : String) (c : Nat) (p : List Nat) (now : Nat) :
    (s.holderToken caller = none →
      update_token s caller tid u c p now = .error .NoIdentityFound ∧
      execStep s (.updateOp caller tid u c p now) = s) ∧
    (∀ k, s.holderToken caller = some k → k ≠ tid →
      update_token s caller tid u c p now = .error .Unauthorized ∧
      execStep s (.updateOp caller tid u c p now) = s) ∧
    (∀ s', update_token s caller tid u c p now = .ok s' →
      ∃ d, s.tokens tid = some d ∧
        s'.tokens tid = some { username := u, contributions := c,
                               tier := Tier.from_contributions c,
                               minted_at := d.minted_at,
                               updated_at := now, proof_data := p } ∧
        (∀ j, j ≠ tid → s'.tokens j = s.tokens j) ∧
        s'.config = s.config ∧ s'.tokenCounter = s.tokenCounter ∧
        s'.holderToken = s.holderToken ∧ s'.hasFlag = s.hasFlag ∧
        s'.nonces = s.nonces) := by
  refine ⟨?_, ?_, ?_⟩
  · intro hh
    have herr := update_error_of_no_identity s caller tid u c p now hh
    exact ⟨herr, execStep_update_error _ _ _ _ _ _ _ _ herr⟩
  · intro k hh hk
    have herr := update_error_of_wrong_token s caller tid k u c p now
      hh hk
    exact ⟨herr, execStep_update_error _ _ _ _ _ _ _ _ herr⟩
  · intro s' hok
    obtain ⟨hh, d, hd, hs'⟩ := update_ok_cases s caller tid u c p now
      s' hok
    refine ⟨d, hd, ?_, ?_, by rw [hs'], by rw [hs'], by rw [hs'],
      by rw [hs'], by rw [hs']⟩
    · rw [hs']
      simp
    · intro j hj
      rw [hs']
      simp [hj]

/-- C8 witness: holder 7 successfully updates token 1 after `trace1`;
the record keeps `minted_at = 100` and takes the new fields. -/
theorem update_auth_and_frame_witness :
    ∃ d, (exec trace1).tokens 1 = some d ∧
      (exec trace2).tokens 1 = some { username := "bob",
                                      contributions := 3500,
                                      tier := Tier.from_contributions 3500,
                                      minted_at := d.minted_at,
                                      updated_at := 150,
                                      proof_data := [4] } ∧
      (∀ j, j ≠ 1 → (exec trace2).tokens j = (exec trace1).tokens j) ∧
      (exec trace2).config = (exec trace1).config ∧
      (exec trace2).tokenCounter = (exec trace1).tokenCounter ∧
      (exec trace2).holderToken = (exec trace1).holderToken ∧
      (exec trace2).hasFlag = (exec trace1).hasFlag ∧
      (exec trace2).nonces = (exec trace1).nonces :=
  (update_auth_and_frame (exec trace1) 7 1 "bob" 3500 [4] 150).2.2
    (exec trace2) (by rfl)

set_option maxRecDepth 8192 in
/-- C9: badge rendering is a pure function of the tier alone,
byte-identical to the spec's literal templates, and `get_token_svg`
fails with `TokenNotFound` exactly when no record exists. -/
theorem badge_pure_function_of_tier (s : ContractState) (tid : Nat)
    (d1 d2 : GithubData) :
    (∀ d : GithubData, generate_svg d = specBadgeTemplate d.tier) ∧
    (d1.tier = d2.tier → generate_svg d1 = generate_svg d2) ∧
    (get_token_svg s tid = .error .TokenNotFound ↔ s.tokens tid = none) ∧
    (∀ d, s.tokens tid = some d →
      get_token_svg s tid = .ok (generate_svg d)) := by
  have hpure : ∀ d : GithubData,
      generate_svg d = specBadgeTemplate d.tier := by
    intro d
    cases hd : d.tier <;>
      · simp only [generate_svg, hd, specBadgeTemplate, specFill,
          specTextColor, specTierName]
        decide
  refine ⟨hpure, ?_, ?_, ?_⟩
  · intro h12
    rw [hpure d1, hpure d2, h12]
  · cases ht : s.tokens tid <;>
      simp [get_token_svg, get_token_data, ht, Except.map]
  · intro d hd
    simp [get_token_svg, get_token_data, hd, Except.map]

/-- C9 witness: token 1 of `trace1` renders as the Architect template,
and two records differing in everything but the tier render equally. -/
theorem badge_pure_function_of_tier_witness :
    (∀ d : GithubData, generate_svg d = specBadgeTemplate d.tier) ∧
    (record3500.tier = recordOther.tier →
      generate_svg record3500 = generate_svg recordOther) ∧
    (get_token_svg (exec trace1) 1 = .error .TokenNotFound ↔
      (exec trace1).tokens 1 = none) ∧
    (∀ d, (exec trace1).tokens 1 = some d →
      get_token_svg (exec trace1) 1 = .ok (generate_svg d)) :=
  badge_pure_function_of_tier (exec trace1) 1 record3500 recordOther

/-- C10: update performs no username validation — a caller whose
registered token equals the supplied id can store an empty username,
even though mint rejects an empty username with `EmptyUsername`. -/
theorem update_skips_username_validation (t : List Op)
    (caller tid : Nat) (c : Nat) (p : List Nat) (now : Nat)
    (h : (exec t).holderToken caller = some tid) :
    (∃ s', update_token (exec t) caller tid "" c p now = .ok s' ∧
       ∃ d', s'.tokens tid = some d' ∧ d'.username = "") ∧
    (∀ (s2 : ContractState) (caller2 c2 : Nat) (p2 : List Nat)
        (n2 now2 : Nat),
      mint s2 caller2 "" c2 p2 n2 now2 = .error .EmptyUsername) := by
  constructor
  · have hsome := (inv_exec t).2.2 caller tid h
    obtain ⟨d, hd⟩ := Option.isSome_iff_exists.mp hsome
    have hupd : update_token (exec t) caller tid "" c p now =
        .ok { exec t with
              tokens := fun i => if i = tid then
                  some { d with username := "", contributions := c,
                                tier := Tier.from_contributions c,
                                updated_at := now, proof_data := p }
                else (exec t).tokens i } := by
      simp [update_token, get_holder_token, h, get_token_data, hd,
        update_token_data]
    refine ⟨_, hupd,
      ⟨{ d with username := "", contributions := c,
                tier := Tier.from_contributions c,
                updated_at := now, proof_data := p }, by simp, rfl⟩⟩
  · intro s2 caller2 c2 p2 n2 now2
    exact mint_error_of_empty_username s2 caller2 "" c2 p2 n2 now2 rfl

/-- C10 witness: after `trace1`, holder 7 updates token 1 to an empty
username and it is stored. -/
theorem update_skips_username_validation_witness :
    (exec trace1).holderToken 7 = some 1 ∧
    ((∃ s', update_token (exec trace1) 7 1 "" 42 [] 160 = .ok s' ∧
       ∃ d', s'.tokens 1 = some d' ∧ d'.username = "") ∧
     (∀ (s2 : ContractState) (caller2 c2 : Nat) (p2 : List Nat)
        (n2 now2 : Nat),
      mint s2 caller2 "" c2 p2 n2 now2 = .error .EmptyUsername)) :=
  ⟨by decide,
   update_skips_username_validation trace1 7 1 42 [] 160 (by decide)⟩

end GithubIdentity
